import Mathlib

/-!
Verification of the dataset-generation core of the gs-dataset repository
(src/scripts/cube.py) against its natural-language specification.

The development shallowly embeds the algorithmically relevant parts of
render_cube, create_transform_json and setup_scene:

* the golden-angle spherical-cap pose sampler (numpy arithmetic over the
  reals, with the single reachable NaN - the 0/0 division at
  num_images = 1 - made explicit through an Option);
* the look-at orientation step, which the script delegates to the host 3D
  toolkit routine Vector.to_track_quat with track axis -Z and up axis Y;
  that routine (the C function vec_to_quat specialised to axis 5, up 1,
  called on the negated vector as the toolkit wrapper does) is embedded
  over the reals;
* the train/test stride-interleave partition loop with its two per-split
  counters, the per-frame record dictionaries, and the render file paths;
* Python round (half to even) and the two stride divisions that can raise
  ZeroDivisionError, modelled with exact rationals;
* the per-split manifest serialisation of create_transform_json together
  with a structural JSON reader used to state the round-trip property.
-/

noncomputable section

/-- A 3D vector with real components. -/
structure V3 where
  x : ℝ
  y : ℝ
  z : ℝ

/-- Componentwise subtraction, as in the script expression target minus
camera location. -/
def vsub (a b : V3) : V3 := ⟨a.x - b.x, a.y - b.y, a.z - b.z⟩

/-- Componentwise negation, as done by the toolkit wrapper before calling
vec_to_quat. -/
def vneg (a : V3) : V3 := ⟨-a.x, -a.y, -a.z⟩

/-- Sum of squared components. -/
def normSq3 (v : V3) : ℝ := v.x ^ 2 + v.y ^ 2 + v.z ^ 2

/-- Euclidean length, the toolkit function len_v3. -/
def norm3 (v : V3) : ℝ := Real.sqrt (normSq3 v)

/-- Dot product of two vectors. -/
def dot3 (a b : V3) : ℝ := a.x * b.x + a.y * b.y + a.z * b.z

/-- The golden angle, np.pi * (3 - np.sqrt(5)) from line 156 of the
script. -/
def goldenAngle : ℝ := Real.pi * (3 - Real.sqrt 5)

/-- numpy modulus for a positive divisor: x - y * floor (x / y).  Used for
the azimuth reduction (i * phi_g) mod 2 pi on line 165. -/
def npMod (x y : ℝ) : ℝ := x - y * ⌊x / y⌋

/-- The z array entry of line 163, z = 1 - i / (num_images - 1) *
(1 - cos theta_max), for frame index i of a run with num_images = n.
When n = 1 the only index is i = 0 and numpy evaluates 0 / 0, producing
NaN (with a runtime warning, not an exception); the NaN outcome is
modelled as none. -/
def capZ (n : ℤ) (i : ℕ) (thetaMax : ℝ) : Option ℝ :=
  if (n : ℝ) - 1 = 0 then none
  else some (1 - (i : ℝ) / ((n : ℝ) - 1) * (1 - Real.cos thetaMax))

/-- The azimuth phis entry of line 165: (i * phi_g) mod 2 pi. -/
def capPhi (i : ℕ) : ℝ := npMod ((i : ℝ) * goldenAngle) (2 * Real.pi)

/-- The camera position computed by lines 177-186 for frame i:
theta = arccos z, phi the reduced azimuth, then the spherical to
cartesian conversion x = r sin theta cos phi, y = r sin theta sin phi,
z = r cos theta with r = distance.  A NaN z array entry (n = 1)
contaminates the whole position, hence the Option map. -/
def camPosCode (n : ℤ) (i : ℕ) (thetaMax distance : ℝ) : Option V3 :=
  (capZ n i thetaMax).map fun z =>
    let theta := Real.arccos z
    let phi := capPhi i
    ⟨distance * Real.sin theta * Real.cos phi,
     distance * Real.sin theta * Real.sin phi,
     distance * Real.cos theta⟩

/-- The sampled position exactly as the specification sentence words it:
phi_i = (i * pi * (3 - sqrt 5)) mod 2 pi, z_i = 1 - (i / (n - 1)) *
(1 - cos theta_max), theta_i = arccos z_i, and position
distance * (sin theta_i cos phi_i, sin theta_i sin phi_i, cos theta_i). -/
def specCapPosition (n : ℤ) (i : ℕ) (thetaMax distance : ℝ) : V3 :=
  let phi := npMod ((i : ℝ) * (Real.pi * (3 - Real.sqrt 5))) (2 * Real.pi)
  let z := 1 - ((i : ℝ) / ((n : ℝ) - 1)) * (1 - Real.cos thetaMax)
  let theta := Real.arccos z
  ⟨distance * (Real.sin theta * Real.cos phi),
   distance * (Real.sin theta * Real.sin phi),
   distance * Real.cos theta⟩

/-- C1: For the golden-angle spherical-cap strategy with frame count
n at least 2, orbit distance d and maximum polar angle theta_max, the
i-th sampled camera position (for every index i below n) is defined (no
NaN) and equals d * (sin theta_i cos phi_i, sin theta_i sin phi_i,
cos theta_i) with phi_i = (i * pi * (3 - sqrt 5)) mod 2 pi,
z_i = 1 - (i / (n - 1)) * (1 - cos theta_max) and theta_i = arccos z_i. -/
theorem camPosCode_eq_spec (n : ℤ) (i : ℕ) (thetaMax distance : ℝ)
    (hn : 2 ≤ n) (_hi : (i : ℤ) < n) :
    camPosCode n i thetaMax distance = some (specCapPosition n i thetaMax distance) := by
  have hden : (n : ℝ) - 1 ≠ 0 := by
    have : (2 : ℝ) ≤ (n : ℝ) := by exact_mod_cast hn
    intro h
    nlinarith
  unfold camPosCode capZ
  rw [if_neg hden]
  unfold specCapPosition capPhi npMod goldenAngle
  simp only [Option.map_some']
  have hV : ∀ a b c a₂ b₂ c₂ : ℝ, a = a₂ → b = b₂ → c = c₂ →
      (⟨a, b, c⟩ : V3) = ⟨a₂, b₂, c₂⟩ := by
    intro a b c a₂ b₂ c₂ ha hb hc
    rw [ha, hb, hc]
  refine congrArg some (hV _ _ _ _ _ _ ?_ ?_ ?_) <;> ring

/-- C3 is falsified by the code: at n = 1 (whose only frame index is
i = 0) the z formula evaluates 0 / 0, so the position is NaN rather than
the pole (0, 0, distance) that the specification requires. -/
theorem camPosCode_one_isNaN (thetaMax distance : ℝ) :
    camPosCode 1 0 thetaMax distance = none ∧
      (none : Option V3) ≠ some ⟨0, 0, distance⟩ := by
  constructor
  · unfold camPosCode capZ
    norm_num
  · intro h
    exact Option.noConfusion h

/-- A 3 by 3 real matrix in mathematical (row, column) convention: mRC is
the entry in row R, column C, and the matrix acts on column vectors. -/
structure M3 where
  m00 : ℝ
  m01 : ℝ
  m02 : ℝ
  m10 : ℝ
  m11 : ℝ
  m12 : ℝ
  m20 : ℝ
  m21 : ℝ
  m22 : ℝ

/-- First column of a matrix. -/
def col0 (M : M3) : V3 := ⟨M.m00, M.m10, M.m20⟩

/-- Second column of a matrix. -/
def col1 (M : M3) : V3 := ⟨M.m01, M.m11, M.m21⟩

/-- Third column of a matrix. -/
def col2 (M : M3) : V3 := ⟨M.m02, M.m12, M.m22⟩

/-- Determinant of a 3 by 3 matrix. -/
def detM3 (M : M3) : ℝ :=
  M.m00 * (M.m11 * M.m22 - M.m12 * M.m21) -
    M.m01 * (M.m10 * M.m22 - M.m12 * M.m20) +
    M.m02 * (M.m10 * M.m21 - M.m11 * M.m20)

/-- Orthonormality of a rotation block, as the specification states it:
every column of unit length, columns mutually orthogonal, and
right-handed (determinant one). -/
def M3Orthonormal (M : M3) : Prop :=
  dot3 (col0 M) (col0 M) = 1 ∧ dot3 (col1 M) (col1 M) = 1 ∧
    dot3 (col2 M) (col2 M) = 1 ∧ dot3 (col0 M) (col1 M) = 0 ∧
    dot3 (col0 M) (col2 M) = 0 ∧ dot3 (col1 M) (col2 M) = 0 ∧
    detM3 M = 1

/-- A quaternion with real components, scalar part first. -/
structure Quat where
  w : ℝ
  x : ℝ
  y : ℝ
  z : ℝ

/-- Hamilton product, the toolkit function mul_qt_qtqt. -/
def qmul (a b : Quat) : Quat :=
  ⟨a.w * b.w - a.x * b.x - a.y * b.y - a.z * b.z,
   a.w * b.x + a.x * b.w + a.y * b.z - a.z * b.y,
   a.w * b.y + a.y * b.w + a.z * b.x - a.x * b.z,
   a.w * b.z + a.z * b.w + a.x * b.y - a.y * b.x⟩

/-- Squared quaternion norm. -/
def qnormSq (q : Quat) : ℝ := q.w ^ 2 + q.x ^ 2 + q.y ^ 2 + q.z ^ 2

/-- The rotation matrix of a (unit) quaternion, the toolkit function
quat_to_mat3 rewritten in (row, column) convention: the columns are the
images of the basis vectors. -/
def quatToMat (q : Quat) : M3 :=
  ⟨1 - 2 * (q.y ^ 2 + q.z ^ 2), 2 * (q.x * q.y - q.w * q.z), 2 * (q.x * q.z + q.w * q.y),
   2 * (q.x * q.y + q.w * q.z), 1 - 2 * (q.x ^ 2 + q.z ^ 2), 2 * (q.y * q.z - q.w * q.x),
   2 * (q.x * q.z - q.w * q.y), 2 * (q.y * q.z + q.w * q.x), 1 - 2 * (q.x ^ 2 + q.y ^ 2)⟩

lemma qnormSq_qmul (a b : Quat) : qnormSq (qmul a b) = qnormSq a * qnormSq b := by
  unfold qmul qnormSq
  ring

/-- Two-argument arctangent, modelled by the complex argument of
x + y i; this matches the C function atan2 on the reals. -/
def atan2 (y x : ℝ) : ℝ := Complex.arg ⟨x, y⟩

/-- The toolkit function normalize_v3: divide by the length unless it is
zero (in which case the zero vector is returned unchanged). -/
def normalize3 (v : V3) : V3 :=
  if norm3 v = 0 then v
  else ⟨v.x / norm3 v, v.y / norm3 v, v.z / norm3 v⟩

lemma normSq3_nonneg (v : V3) : 0 ≤ normSq3 v := by
  unfold normSq3
  positivity

lemma normSq3_normalize3 (v : V3) (h : normSq3 v ≠ 0) :
    normSq3 (normalize3 v) = 1 := by
  have hnn : 0 ≤ normSq3 v := normSq3_nonneg v
  have hs : Real.sqrt (normSq3 v) ^ 2 = normSq3 v := Real.sq_sqrt hnn
  have hL : Real.sqrt (normSq3 v) ≠ 0 := by
    intro h0
    apply h
    rw [← hs, h0]
    norm_num
  unfold normalize3 norm3
  rw [if_neg hL]
  show (v.x / Real.sqrt (normSq3 v)) ^ 2 + (v.y / Real.sqrt (normSq3 v)) ^ 2 +
      (v.z / Real.sqrt (normSq3 v)) ^ 2 = 1
  rw [div_pow, div_pow, div_pow, div_add_div_same, div_add_div_same, hs]
  exact div_self h

/-- The rotation axis nor chosen by vec_to_quat in its z-axis branch:
(-tvec.y, tvec.x, 0), with the first component overwritten to 1 when
abs tvec.x + abs tvec.y is below the 1e-4 epsilon, then normalised. -/
def trackNor (tvec : V3) : V3 :=
  normalize3
    (if |tvec.x| + |tvec.y| < 1 / 10000 then ⟨1, tvec.x, 0⟩
     else ⟨-tvec.y, tvec.x, 0⟩)

/-- The first quaternion built by vec_to_quat: the axis-angle rotation
about the normalised nor by saacos (tvec.z / len).  Real.arccos clamps
its argument to the unit interval exactly as the safe arccos saacos
does. -/
def trackQ1 (tvec : V3) (len : ℝ) : Quat :=
  ⟨Real.cos (Real.arccos (tvec.z / len) / 2),
   (trackNor tvec).x * Real.sin (Real.arccos (tvec.z / len) / 2),
   (trackNor tvec).y * Real.sin (Real.arccos (tvec.z / len) / 2),
   (trackNor tvec).z * Real.sin (Real.arccos (tvec.z / len) / 2)⟩

/-- The roll angle of the up twist for tracked axis Z with up axis Y:
fp is the third column of the matrix of the first quaternion and the
angle is -(1/2) * atan2 (-fp.x) (-fp.y). -/
def trackAngle2 (tvec : V3) (len : ℝ) : ℝ :=
  -(1 / 2) * atan2 (-(col2 (quatToMat (trackQ1 tvec len))).x)
    (-(col2 (quatToMat (trackQ1 tvec len))).y)

/-- The up-twist quaternion of vec_to_quat: scalar part cos angle,
vector part tvec * (sin angle / len). -/
def trackQ2 (tvec : V3) (len : ℝ) : Quat :=
  ⟨Real.cos (trackAngle2 tvec len),
   tvec.x * (Real.sin (trackAngle2 tvec len) / len),
   tvec.y * (Real.sin (trackAngle2 tvec len) / len),
   tvec.z * (Real.sin (trackAngle2 tvec len) / len)⟩

/-- mathutils Vector.to_track_quat with track axis -Z and up axis Y, as
called on line 190 of the script.  The wrapper negates the vector and
calls vec_to_quat with axis 5 (minus Z) and up 1 (Y); vec_to_quat
returns the identity quaternion when the vector has zero length, and
otherwise composes the up twist with the axis rotation. -/
def to_track_quat_negZ_Y (d : V3) : Quat :=
  if norm3 (vneg d) = 0 then ⟨1, 0, 0, 0⟩
  else qmul (trackQ2 (vneg d) (norm3 (vneg d))) (trackQ1 (vneg d) (norm3 (vneg d)))

lemma trackNor_unit (tvec : V3) : normSq3 (trackNor tvec) = 1 := by
  unfold trackNor
  apply normSq3_normalize3
  by_cases hc : |tvec.x| + |tvec.y| < 1 / 10000
  · rw [if_pos hc]
    simp only [normSq3]
    positivity
  · rw [if_neg hc]
    push_neg at hc
    simp only [normSq3]
    intro h0
    have hx : tvec.x = 0 := by nlinarith [sq_nonneg tvec.x, sq_nonneg tvec.y]
    have hy : tvec.y = 0 := by nlinarith [sq_nonneg tvec.x, sq_nonneg tvec.y]
    rw [hx, hy] at hc
    norm_num at hc

lemma trackQ1_unit (tvec : V3) (len : ℝ) : qnormSq (trackQ1 tvec len) = 1 := by
  have h := trackNor_unit tvec
  unfold normSq3 at h
  have hcs := Real.sin_sq_add_cos_sq (Real.arccos (tvec.z / len) / 2)
  unfold trackQ1 qnormSq
  linear_combination (Real.sin (Real.arccos (tvec.z / len) / 2)) ^ 2 * h + hcs

lemma trackQ2_unit (tvec : V3) (len : ℝ) (hlen : len ≠ 0)
    (hS : normSq3 tvec = len ^ 2) : qnormSq (trackQ2 tvec len) = 1 := by
  unfold normSq3 at hS
  have hcs := Real.sin_sq_add_cos_sq (trackAngle2 tvec len)
  have h2 : (Real.sin (trackAngle2 tvec len) / len) ^ 2 *
      (tvec.x ^ 2 + tvec.y ^ 2 + tvec.z ^ 2) = Real.sin (trackAngle2 tvec len) ^ 2 := by
    rw [hS, div_pow]
    field_simp
  unfold trackQ2 qnormSq
  linear_combination h2 + hcs

lemma to_track_quat_unit (d : V3) : qnormSq (to_track_quat_negZ_Y d) = 1 := by
  unfold to_track_quat_negZ_Y
  by_cases h : norm3 (vneg d) = 0
  · rw [if_pos h]
    unfold qnormSq
    norm_num
  · rw [if_neg h]
    have hS : normSq3 (vneg d) = norm3 (vneg d) ^ 2 :=
      (Real.sq_sqrt (normSq3_nonneg _)).symm
    rw [qnormSq_qmul, trackQ2_unit _ _ h hS, trackQ1_unit]
    norm_num

/-- The matrix of a unit quaternion is orthonormal and right-handed. -/
lemma quatToMat_orthonormal (q : Quat) (h : qnormSq q = 1) :
    M3Orthonormal (quatToMat q) := by
  unfold qnormSq at h
  simp only [M3Orthonormal, quatToMat, col0, col1, col2, dot3, detM3]
  refine ⟨?_, ?_, ?_, ?_, ?_, ?_, ?_⟩
  · linear_combination (4 * (q.y ^ 2 + q.z ^ 2)) * h
  · linear_combination (4 * (q.x ^ 2 + q.z ^ 2)) * h
  · linear_combination (4 * (q.x ^ 2 + q.y ^ 2)) * h
  · linear_combination (-(4 * q.x * q.y)) * h
  · linear_combination (-(4 * q.x * q.z)) * h
  · linear_combination (-(4 * q.y * q.z)) * h
  · rw [← h]
    linear_combination ((q.w ^ 2 + q.x ^ 2 + q.y ^ 2 + q.z ^ 2) ^ 2 +
      (q.w ^ 2 + q.x ^ 2 + q.y ^ 2 + q.z ^ 2)) * h

/-- The rotation block of camera.matrix_world after line 191: the matrix
of the tracking quaternion computed from direction = target - location.
(The script routes the quaternion through Euler angles before the matrix
is read back; over the reals that round trip reproduces the same
rotation matrix, so the composite is embedded as the quaternion
matrix.) -/
def camRotation (position target : V3) : M3 :=
  quatToMat (to_track_quat_negZ_Y (vsub target position))

/-- The rows of the 4 by 4 camera-to-world matrix serialised on
line 197: rotation block, translation column equal to the camera
location, and last row 0 0 0 1. -/
def matrixWorldRows (position target : V3) : List (List ℝ) :=
  [[(camRotation position target).m00, (camRotation position target).m01,
    (camRotation position target).m02, position.x],
   [(camRotation position target).m10, (camRotation position target).m11,
    (camRotation position target).m12, position.y],
   [(camRotation position target).m20, (camRotation position target).m21,
    (camRotation position target).m22, position.z],
   [0, 0, 0, 1]]

/-- C6: Every produced camera-to-world transform consists of an
orthonormal right-handed 3 by 3 rotation block, a translation column
equal to the camera position, and last row 0 0 0 1. -/
theorem matrixWorld_invariants (position target : V3) :
    ∃ R : M3, M3Orthonormal R ∧
      matrixWorldRows position target =
        [[R.m00, R.m01, R.m02, position.x],
         [R.m10, R.m11, R.m12, position.y],
         [R.m20, R.m21, R.m22, position.z],
         [0, 0, 0, 1]] :=
  ⟨camRotation position target,
    quatToMat_orthonormal _ (to_track_quat_unit _), rfl⟩

/-- C4 counterexample: with the camera at (0, -5, 0) and the target at
the origin, the look direction (0, 5, 0) is exactly parallel to the
world up axis Y, yet the look-at step of lines 188-191 signals nothing:
the toolkit tracking routine silently returns a rotation whose matrix is
an orthonormal right-handed basis. -/
theorem lookAt_parallel_up_no_error :
    vsub ⟨0, 0, 0⟩ ⟨0, -5, 0⟩ = (⟨0, 5, 0⟩ : V3) ∧
      M3Orthonormal (quatToMat (to_track_quat_negZ_Y ⟨0, 5, 0⟩)) := by
  constructor
  · norm_num [vsub]
  · exact quatToMat_orthonormal _ (to_track_quat_unit _)

/-- C4 amended: for every direction toward the target, including
directions parallel or near-parallel to the world up vector, the
orientation construction signals no configuration error: it is a total
function and the basis it produces is always orthonormal (never
singular), the toolkit falling back to an arbitrary roll instead of
failing. -/
theorem lookAt_total_orthonormal (direction : V3) :
    M3Orthonormal (quatToMat (to_track_quat_negZ_Y direction)) :=
  quatToMat_orthonormal _ (to_track_quat_unit _)

end

/-- Python round (round half to even) on exact rationals.  The script
calls round on num_images * train_ratio and on num_images / num_train
(lines 168-169); both operands are modelled exactly as rationals. -/
def pythonRound (q : ℚ) : ℤ :=
  if Int.fract q < 1 / 2 then ⌊q⌋
  else if 1 / 2 < Int.fract q then ⌊q⌋ + 1
  else if ⌊q⌋ % 2 = 0 then ⌊q⌋ else ⌊q⌋ + 1

lemma pythonRound_le (q : ℚ) : (pythonRound q : ℚ) ≤ q + 1 / 2 := by
  have h1 : (⌊q⌋ : ℚ) ≤ q := Int.floor_le q
  have h4 : Int.fract q = q - ⌊q⌋ := rfl
  unfold pythonRound
  split_ifs <;> push_cast <;> linarith [h4]

lemma pythonRound_ge (q : ℚ) : q - 1 / 2 ≤ (pythonRound q : ℚ) := by
  have h3 : Int.fract q < 1 := Int.fract_lt_one q
  have h4 : Int.fract q = q - ⌊q⌋ := rfl
  unfold pythonRound
  split_ifs with ha hb hc <;> push_cast <;> linarith [h4]

/-- The character list of the decimal rendering of a natural number, as
produced by the Python f-string interpolation of the per-split
counters. -/
def natStrData (n : ℕ) : List Char :=
  if n = 0 then [Nat.digitChar 0]
  else (Nat.digits 10 n).reverse.map Nat.digitChar

/-- Decimal rendering of a natural number as a string. -/
def natStr (n : ℕ) : String := ⟨natStrData n⟩

lemma digitChar_inj : ∀ a < 10, ∀ b < 10,
    Nat.digitChar a = Nat.digitChar b → a = b := by decide

lemma map_digitChar_inj : ∀ as bs : List ℕ, (∀ a ∈ as, a < 10) → (∀ b ∈ bs, b < 10) →
    as.map Nat.digitChar = bs.map Nat.digitChar → as = bs := by
  intro as
  induction as with
  | nil =>
      intro bs _ _ h
      cases bs with
      | nil => rfl
      | cons b bs => simp at h
  | cons a as ih =>
      intro bs ha hb h
      cases bs with
      | nil => simp at h
      | cons b bs =>
          simp only [List.map_cons, List.cons.injEq] at h
          have hab : a = b :=
            digitChar_inj a (ha a (by simp)) b (hb b (by simp)) h.1
          have htl : as = bs :=
            ih bs (fun u hu => ha u (by simp [hu])) (fun u hu => hb u (by simp [hu])) h.2
          rw [hab, htl]

lemma digits_rev_bound (n : ℕ) : ∀ a ∈ (Nat.digits 10 n).reverse, a < 10 := by
  intro a ha
  rw [List.mem_reverse] at ha
  exact Nat.digits_lt_base (by norm_num) ha

lemma natStrData_ne_zero_case (n : ℕ) (hn : n ≠ 0) :
    (Nat.digits 10 n).reverse.map Nat.digitChar ≠ [Nat.digitChar 0] := by
  intro h
  have hlen := congrArg List.length h
  simp only [List.length_map, List.length_reverse, List.length_cons,
    List.length_nil] at hlen
  obtain ⟨d, hd⟩ := List.length_eq_one.mp (by omega : (Nat.digits 10 n).length = 1)
  have hd10 : d < 10 :=
    Nat.digits_lt_base (by norm_num) (hd ▸ List.mem_singleton_self d)
  rw [hd] at h
  simp only [List.reverse_singleton, List.map_cons, List.map_nil,
    List.cons.injEq, and_true] at h
  have hd0 : d = 0 := digitChar_inj d hd10 0 (by norm_num) h
  have hofd := Nat.ofDigits_digits 10 n
  rw [hd, hd0] at hofd
  simp [Nat.ofDigits] at hofd
  exact hn hofd.symm

lemma natStrData_inj (m n : ℕ) (h : natStrData m = natStrData n) : m = n := by
  unfold natStrData at h
  by_cases hm : m = 0 <;> by_cases hn : n = 0
  · rw [hm, hn]
  · rw [if_pos hm, if_neg hn] at h
    exact absurd h.symm (natStrData_ne_zero_case n hn)
  · rw [if_neg hm, if_pos hn] at h
    exact absurd h (natStrData_ne_zero_case m hm)
  · rw [if_neg hm, if_neg hn] at h
    have hrev : (Nat.digits 10 m).reverse = (Nat.digits 10 n).reverse :=
      map_digitChar_inj _ _ (digits_rev_bound m) (digits_rev_bound n) h
    have hdig : Nat.digits 10 m = Nat.digits 10 n := List.reverse_injective hrev
    have h1 := Nat.ofDigits_digits 10 m
    rw [hdig, Nat.ofDigits_digits] at h1
    exact h1.symm

lemma natStr_injective : Function.Injective natStr := by
  intro m n h
  exact natStrData_inj m n (by simpa [natStr] using congrArg String.data h)


lemma string_append_cancel_left (p a b : String) (h : p ++ a = p ++ b) : a = b := by
  have hd := congrArg String.data h
  rw [String.data_append, String.data_append] at hd
  have hab : a.data = b.data := List.append_cancel_left hd
  exact congrArg String.mk hab

/-- A per-frame record, the dict built on lines 194-199.  The scalar
type is a parameter; the geometry instantiates it with Option of real,
none standing for a NaN entry. -/
structure FrameRec (α : Type) where
  file_path : String
  rotation : α
  transform_matrix : List (List α)
  camera_angle_x : α

/-- The mutable state of the render loop of lines 171-210: the two
per-split counters, the two accumulated per-frame parameter lists, and
the trace of output file paths successively assigned to the renderer
before each render call. -/
structure RState (α : Type) where
  ntrain : ℕ
  ntest : ℕ
  train : List (FrameRec α)
  test : List (FrameRec α)
  renderPaths : List String

/-- The frame record appended to the train list for global index i when
the train counter stands at k: file path train/r_k, the constant
rotation step, the transform rows of frame i, and the shared horizontal
field of view. -/
def trainFrameRec {α : Type} (tm : ℕ → List (List α)) (rot cax : α)
    (k i : ℕ) : FrameRec α :=
  ⟨"train/r_" ++ natStr k, rot, tm i, cax⟩

/-- The frame record appended to the test list for global index i when
the test counter stands at k: file path test/r_k. -/
def testFrameRec {α : Type} (tm : ℕ → List (List α)) (rot cax : α)
    (k i : ℕ) : FrameRec α :=
  ⟨"test/r_" ++ natStr k, rot, tm i, cax⟩

/-- One iteration of the loop body of lines 175-210 for global index i:
the branch on i mod stride == 0 appends the frame to the corresponding
split (its file path indexed by the counter value before the
increment), increments that split counter, and records the render
output path out_dir/r_(counter - 1).png handed to the renderer, where
os.path.join inserts a single slash. -/
def loopStep {α : Type} (tm : ℕ → List (List α)) (rot cax : α)
    (trainDir testDir : String) (stride : ℕ) (s : RState α) (i : ℕ) : RState α :=
  if i % stride = 0 then
    { ntrain := s.ntrain + 1, ntest := s.ntest,
      train := s.train ++ [trainFrameRec tm rot cax s.ntrain i],
      test := s.test,
      renderPaths := s.renderPaths ++
        [trainDir ++ "/r_" ++ natStr (s.ntrain + 1 - 1) ++ ".png"] }
  else
    { ntrain := s.ntrain, ntest := s.ntest + 1,
      train := s.train,
      test := s.test ++ [testFrameRec tm rot cax s.ntest i],
      renderPaths := s.renderPaths ++
        [testDir ++ "/r_" ++ natStr (s.ntest + 1 - 1) ++ ".png"] }

/-- The initial loop state (lines 171-173): both counters zero, empty
accumulators. -/
def initRState (α : Type) : RState α := ⟨0, 0, [], [], []⟩

/-- The Python exception the embedded fragment can raise. -/
inductive PyError where
  | zeroDivision

/-- render_cube from the directory setup through the render loop
(lines 126-210): num_train = round(num_images * train_ratio) and
stride = round(num_images / num_train), the two division sites that
raise ZeroDivisionError (num_train = 0 at line 169; stride = 0 at the
first loop iteration, before any render, when the loop body runs at
all), then the fold of the loop body over range(num_images).  Python
range of a non-positive count is empty, hence List.range of the toNat.
For nonzero stride the Python floored modulus satisfies
i % stride == 0 exactly when stride divides i, which equals
i % natAbs stride = 0 on the non-negative loop indices. -/
def renderCubeRun {α : Type} (tm : ℕ → List (List α)) (rot cax : α)
    (outputDir folderName : String) (num_images : ℤ) (train_ratio : ℚ) :
    Except PyError (RState α) :=
  if pythonRound ((num_images : ℚ) * train_ratio) = 0 then .error .zeroDivision
  else
    if 1 ≤ num_images ∧
        pythonRound ((num_images : ℚ) /
          (pythonRound ((num_images : ℚ) * train_ratio) : ℚ)) = 0 then
      .error .zeroDivision
    else
      .ok ((List.range num_images.toNat).foldl
        (loopStep tm rot cax
          (outputDir ++ "/" ++ folderName ++ "/" ++ "train")
          (outputDir ++ "/" ++ folderName ++ "/" ++ "test")
          (pythonRound ((num_images : ℚ) /
            (pythonRound ((num_images : ℚ) * train_ratio) : ℚ))).natAbs)
        (initRState α))

/-- Pair each list element with an index counting up from k. -/
def idxFrom {β : Type} (k : ℕ) : List β → List (ℕ × β)
  | [] => []
  | b :: bs => (k, b) :: idxFrom (k + 1) bs

lemma idxFrom_map_fst {β : Type} : ∀ (l : List β) (k : ℕ),
    (idxFrom k l).map Prod.fst = List.range' k l.length := by
  intro l
  induction l with
  | nil => intro k; simp [idxFrom]
  | cons b bs ih => intro k; simp [idxFrom, List.range', ih]

lemma loop_train_spec {α : Type} (tm : ℕ → List (List α)) (rot cax : α)
    (tD eD : String) (stride : ℕ) : ∀ (l : List ℕ) (s : RState α),
    (l.foldl (loopStep tm rot cax tD eD stride) s).ntrain =
        s.ntrain + (l.filter (fun i => decide (i % stride = 0))).length ∧
      (l.foldl (loopStep tm rot cax tD eD stride) s).train =
        s.train ++ (idxFrom s.ntrain (l.filter (fun i => decide (i % stride = 0)))).map
          (fun p => trainFrameRec tm rot cax p.1 p.2) := by
  intro l
  induction l with
  | nil => intro s; simp [idxFrom]
  | cons i l ih =>
      intro s
      rw [List.foldl_cons]
      obtain ⟨h1, h2⟩ := ih (loopStep tm rot cax tD eD stride s i)
      by_cases hc : i % stride = 0
      · constructor
        · rw [h1]
          simp only [loopStep, if_pos hc, List.filter_cons, hc]
          simp [idxFrom]
          omega
        · rw [h2]
          simp only [loopStep, if_pos hc, List.filter_cons, hc]
          simp [idxFrom, List.append_assoc]
      · constructor
        · rw [h1]
          simp only [loopStep, if_neg hc, List.filter_cons, hc]
          simp
        · rw [h2]
          simp only [loopStep, if_neg hc, List.filter_cons, hc]
          simp

lemma loop_test_spec {α : Type} (tm : ℕ → List (List α)) (rot cax : α)
    (tD eD : String) (stride : ℕ) : ∀ (l : List ℕ) (s : RState α),
    (l.foldl (loopStep tm rot cax tD eD stride) s).ntest =
        s.ntest + (l.filter (fun i => decide (¬ i % stride = 0))).length ∧
      (l.foldl (loopStep tm rot cax tD eD stride) s).test =
        s.test ++ (idxFrom s.ntest (l.filter (fun i => decide (¬ i % stride = 0)))).map
          (fun p => testFrameRec tm rot cax p.1 p.2) := by
  intro l
  induction l with
  | nil => intro s; simp [idxFrom]
  | cons i l ih =>
      intro s
      rw [List.foldl_cons]
      obtain ⟨h1, h2⟩ := ih (loopStep tm rot cax tD eD stride s i)
      by_cases hc : i % stride = 0
      · constructor
        · rw [h1]
          simp only [loopStep, if_pos hc, List.filter_cons, hc]
          simp
        · rw [h2]
          simp only [loopStep, if_pos hc, List.filter_cons, hc]
          simp
      · constructor
        · rw [h1]
          simp only [loopStep, if_neg hc, List.filter_cons, hc]
          simp [idxFrom]
          omega
        · rw [h2]
          simp only [loopStep, if_neg hc, List.filter_cons, hc]
          simp [idxFrom, List.append_assoc]

lemma loop_paths_png {α : Type} (tm : ℕ → List (List α)) (rot cax : α)
    (tD eD : String) (stride : ℕ) : ∀ (l : List ℕ) (s : RState α) (p : String),
    p ∈ (l.foldl (loopStep tm rot cax tD eD stride) s).renderPaths →
    p ∈ s.renderPaths ∨ ∃ q : String, p = q ++ ".png" := by
  intro l
  induction l with
  | nil =>
      intro s p hp
      exact Or.inl hp
  | cons i l ih =>
      intro s p hp
      rw [List.foldl_cons] at hp
      rcases ih _ p hp with h | h
      · unfold loopStep at h
        by_cases hc : i % stride = 0
        · rw [if_pos hc] at h
          simp only [List.mem_append, List.mem_singleton] at h
          rcases h with h | h
          · exact Or.inl h
          · exact Or.inr ⟨tD ++ "/r_" ++ natStr (s.ntrain + 1 - 1), h⟩
        · rw [if_neg hc] at h
          simp only [List.mem_append, List.mem_singleton] at h
          rcases h with h | h
          · exact Or.inl h
          · exact Or.inr ⟨eD ++ "/r_" ++ natStr (s.ntest + 1 - 1), h⟩
      · exact Or.inr h

lemma num_train_le_n (n : ℤ) (f : ℚ) (hn : 1 ≤ n) (hf1 : f ≤ 1) (_hf0 : 0 ≤ f) :
    pythonRound ((n : ℚ) * f) ≤ n := by
  have h := pythonRound_le ((n : ℚ) * f)
  have hn0 : (0 : ℚ) ≤ (n : ℚ) := by exact_mod_cast le_trans (by norm_num) hn
  have hmul : (n : ℚ) * f ≤ (n : ℚ) := by nlinarith
  have hlt : (pythonRound ((n : ℚ) * f) : ℚ) < (n : ℚ) + 1 := by linarith
  have hlt2 : pythonRound ((n : ℚ) * f) < n + 1 := by exact_mod_cast hlt
  omega

lemma stride_ge_one (n : ℤ) (f : ℚ) (hn : 1 ≤ n) (hf1 : f ≤ 1) (hf0 : 0 ≤ f)
    (hnt : 1 ≤ pythonRound ((n : ℚ) * f)) :
    1 ≤ pythonRound ((n : ℚ) / (pythonRound ((n : ℚ) * f) : ℚ)) := by
  have htn : pythonRound ((n : ℚ) * f) ≤ n := num_train_le_n n f hn hf1 hf0
  have htpos : (0 : ℚ) < (pythonRound ((n : ℚ) * f) : ℚ) := by
    have : (0 : ℤ) < pythonRound ((n : ℚ) * f) := by omega
    exact_mod_cast this
  have hq1 : (1 : ℚ) ≤ (n : ℚ) / (pythonRound ((n : ℚ) * f) : ℚ) := by
    rw [le_div_iff₀ htpos, one_mul]
    exact_mod_cast htn
  have h := pythonRound_ge ((n : ℚ) / (pythonRound ((n : ℚ) * f) : ℚ))
  have hpos : (0 : ℚ) < (pythonRound ((n : ℚ) / (pythonRound ((n : ℚ) * f) : ℚ)) : ℚ) := by
    linarith
  have : (0 : ℤ) < pythonRound ((n : ℚ) / (pythonRound ((n : ℚ) * f) : ℚ)) := by
    exact_mod_cast hpos
  omega

/-- The configuration keys the embedded fragment consumes (section 6 of
the specification); camera intrinsics stay with the host camera. -/
structure Config where
  resolution_x : ℕ
  resolution_y : ℕ
  format : String
  samples : ℕ
  directory : String
  cubeLocation : V3
  num_images : ℤ
  theta_max_deg : ℝ
  distance : ℝ

/-- The render settings applied by setup_scene (lines 22-29): the
resolution pair, the configured image format string assigned verbatim
to the image settings, the sample count, and the transparent film
flag. -/
structure SceneSettings where
  resolution_x : ℕ
  resolution_y : ℕ
  file_format : String
  samples : ℕ
  film_transparent : Bool

/-- setup_scene of lines 15-29, restricted to the settings it writes. -/
def setup_scene (config : Config) : SceneSettings :=
  ⟨config.resolution_x, config.resolution_y, config.format, config.samples, true⟩

/-- Degrees to radians, np.deg2rad on line 157. -/
noncomputable def deg2rad (x : ℝ) : ℝ := x * (Real.pi / 180)

/-- The transform matrix rows recorded for frame i of a run with n
frames: the rows of camera.matrix_world at the sampled position, every
scalar wrapped in some; the NaN position of the n = 1 run contaminates
every entry, giving a 4 by 4 block of none. -/
noncomputable def transformRowsNp (n : ℤ) (i : ℕ) (thetaMax distance : ℝ)
    (target : V3) : List (List (Option ℝ)) :=
  match camPosCode n i thetaMax distance with
  | some p => (matrixWorldRows p target).map (List.map some)
  | none => List.replicate 4 (List.replicate 4 none)

/-- render_cube of lines 123-216 applied to a configuration and the
caller-supplied train_ratio: the script file is named cube.py so the
object folder is cube; rotation is the constant golden angle and
camera_angle_x is the intrinsic read from the host camera on line 151,
kept as a parameter. -/
noncomputable def render_cube (config : Config) (train_ratio : ℚ)
    (camera_angle_x : ℝ) : Except PyError (RState (Option ℝ)) :=
  renderCubeRun
    (fun i => transformRowsNp config.num_images i (deg2rad config.theta_max_deg)
      config.distance config.cubeLocation)
    (some goldenAngle) (some camera_angle_x) config.directory "cube"
    config.num_images train_ratio

/-- A structural JSON document over scalar type α, the shape json.dump
writes on line 246 (Python dicts keep insertion order, so object fields
are an ordered association list). -/
inductive Json (α : Type) where
  | num (v : α)
  | str (s : String)
  | arr (elems : List (Json α))
  | obj (fields : List (String × Json α))

/-- One frame object of the frames array (lines 236-240): exactly the
keys file_path, rotation and transform_matrix, in that order, with the
transform serialised as a nested row-major array. -/
def serializeFrame {α : Type} (p : FrameRec α) : Json α :=
  .obj [("file_path", .str p.file_path), ("rotation", .num p.rotation),
    ("transform_matrix", .arr (p.transform_matrix.map (fun row => .arr (row.map .num))))]

/-- create_transform_json of lines 218-248, reduced to the document it
writes: for an empty camera parameter list it prints the warning of
line 221 and returns without writing any file (modelled as none);
otherwise it writes exactly one JSON object whose camera_angle_x is
taken from the first record and whose frames array lists the records in
insertion order. -/
def create_transform_json {α : Type} (camera_params : List (FrameRec α)) :
    Option (Json α) :=
  match camera_params with
  | [] => none
  | p :: rest =>
      some (.obj [("camera_angle_x", .num p.camera_angle_x),
        ("frames", .arr ((p :: rest).map serializeFrame))])

/-- A re-parsed frame: the three fields a consuming pipeline reads
back. -/
structure JFrame (α : Type) where
  file_path : String
  rotation : α
  transform_matrix : List (List α)

/-- A re-parsed manifest. -/
structure ManifestData (α : Type) where
  camera_angle_x : α
  frames : List (JFrame α)

/-- The value bound to a key in a JSON object, as a dict lookup. -/
def lookupField {α : Type} (fields : List (String × Json α)) (k : String) :
    Option (Json α) :=
  match fields with
  | [] => none
  | (k₂, v) :: rest => if k₂ = k then some v else lookupField rest k

/-- The key list of a JSON object (empty for other documents). -/
def jsonKeys {α : Type} : Json α → List String
  | .obj fs => fs.map Prod.fst
  | _ => []

def parseNum {α : Type} : Json α → Option α
  | .num v => some v
  | _ => none

def parseNums {α : Type} : List (Json α) → Option (List α)
  | [] => some []
  | j :: js =>
      match parseNum j, parseNums js with
      | some v, some vs => some (v :: vs)
      | _, _ => none

def parseRow {α : Type} : Json α → Option (List α)
  | .arr es => parseNums es
  | _ => none

def parseRows {α : Type} : List (Json α) → Option (List (List α))
  | [] => some []
  | j :: js =>
      match parseRow j, parseRows js with
      | some r, some rs => some (r :: rs)
      | _, _ => none

def parseMatrix {α : Type} : Json α → Option (List (List α))
  | .arr rows => parseRows rows
  | _ => none

def parseFrame {α : Type} (j : Json α) : Option (JFrame α) :=
  match j with
  | .obj fs =>
      match lookupField fs "file_path", lookupField fs "rotation",
          lookupField fs "transform_matrix" with
      | some (.str s), some (.num r), some mJ =>
          (parseMatrix mJ).map (fun m => ⟨s, r, m⟩)
      | _, _, _ => none
  | _ => none

def parseFrames {α : Type} : List (Json α) → Option (List (JFrame α))
  | [] => some []
  | j :: js =>
      match parseFrame j, parseFrames js with
      | some fr, some frs => some (fr :: frs)
      | _, _ => none

def parseManifest {α : Type} (j : Json α) : Option (ManifestData α) :=
  match j with
  | .obj fs =>
      match lookupField fs "camera_angle_x", lookupField fs "frames" with
      | some (.num c), some (.arr fjs) =>
          (parseFrames fjs).map (fun frs => ⟨c, frs⟩)
      | _, _ => none
  | _ => none

lemma parseNums_map_num {α : Type} (row : List α) :
    parseNums (row.map Json.num) = some row := by
  induction row with
  | nil => rfl
  | cons v vs ih => simp [parseNums, parseNum, ih]

lemma parseRows_map {α : Type} (tm : List (List α)) :
    parseRows (tm.map (fun row => Json.arr (row.map Json.num))) = some tm := by
  induction tm with
  | nil => rfl
  | cons r rs ih => simp [parseRows, parseRow, parseNums_map_num, ih]

lemma parseFrame_serializeFrame {α : Type} (p : FrameRec α) :
    parseFrame (serializeFrame p) =
      some ⟨p.file_path, p.rotation, p.transform_matrix⟩ := by
  simp [parseFrame, serializeFrame, lookupField, parseMatrix, parseRows_map]

lemma parseFrames_map_serialize {α : Type} (ps : List (FrameRec α)) :
    parseFrames (ps.map serializeFrame) =
      some (ps.map (fun p => ⟨p.file_path, p.rotation, p.transform_matrix⟩)) := by
  induction ps with
  | nil => rfl
  | cons p ps ih => simp [parseFrames, parseFrame_serializeFrame, ih]

lemma manifest_roundtrip {α : Type} (p : FrameRec α) (rest : List (FrameRec α)) :
    ∃ j : Json α, create_transform_json (p :: rest) = some j ∧
      parseManifest j = some ⟨p.camera_angle_x,
        (p :: rest).map (fun q => ⟨q.file_path, q.rotation, q.transform_matrix⟩)⟩ := by
  refine ⟨_, rfl, ?_⟩
  have h := parseFrames_map_serialize (p :: rest)
  simp only [List.map_cons] at h
  simp [create_transform_json, parseManifest, lookupField, h]

lemma render_cube_ok (config : Config) (f : ℚ) (cax : ℝ)
    (hn : 1 ≤ config.num_images) (hf0 : 0 ≤ f) (hf1 : f ≤ 1)
    (hnt : 1 ≤ pythonRound ((config.num_images : ℚ) * f)) :
    render_cube config f cax =
      .ok ((List.range config.num_images.toNat).foldl
        (loopStep (fun i => transformRowsNp config.num_images i
            (deg2rad config.theta_max_deg) config.distance config.cubeLocation)
          (some goldenAngle) (some cax)
          (config.directory ++ "/" ++ "cube" ++ "/" ++ "train")
          (config.directory ++ "/" ++ "cube" ++ "/" ++ "test")
          (pythonRound ((config.num_images : ℚ) /
            (pythonRound ((config.num_images : ℚ) * f) : ℚ))).natAbs)
        (initRState (Option ℝ))) := by
  have hA : ¬ pythonRound ((config.num_images : ℚ) * f) = 0 := by omega
  have hB : ¬(1 ≤ config.num_images ∧
      pythonRound ((config.num_images : ℚ) /
        (pythonRound ((config.num_images : ℚ) * f) : ℚ)) = 0) := by
    intro hc
    obtain ⟨-, h0⟩ := hc
    have := stride_ge_one config.num_images f hn hf1 hf0 hnt
    omega
  unfold render_cube renderCubeRun
  rw [if_neg hA, if_neg hB]

lemma nodup_pathIdx {β : Type} (pre : String) (L : List β) (k : ℕ) :
    ((idxFrom k L).map (fun p => pre ++ natStr p.1)).Nodup := by
  have h1 : (idxFrom k L).map (fun p => pre ++ natStr p.1) =
      (List.range' k L.length).map (fun j => pre ++ natStr j) := by
    rw [← idxFrom_map_fst L k, List.map_map]
    rfl
  rw [h1]
  refine List.Nodup.map ?_ (List.nodup_range' _ _)
  intro a b hab
  exact natStr_injective (string_append_cancel_left pre _ _ hab)

/-- A concrete configuration with nine frames, used to instantiate the
partition scenario. -/
noncomputable def cfgNine : Config := ⟨100, 100, "PNG", 8, "output", ⟨0, 0, 0⟩, 9, 80, 4⟩

/-- The same concrete configuration with num_images = 0. -/
noncomputable def cfgZero : Config := ⟨100, 100, "PNG", 8, "output", ⟨0, 0, 0⟩, 0, 80, 4⟩

/-- The same concrete configuration with num_images = -9. -/
noncomputable def cfgNeg : Config := ⟨100, 100, "PNG", 8, "output", ⟨0, 0, 0⟩, -9, 80, 4⟩

/-- C7: create_transform_json writes no manifest exactly when the
split accumulated zero frames (only the non-fatal warning of line 221
is printed, modelled by the none result), and writes exactly one
manifest document when the split holds at least one frame. -/
theorem create_transform_json_empty_iff {α : Type}
    (camera_params : List (FrameRec α)) :
    (create_transform_json camera_params = none ↔ camera_params = []) ∧
      (camera_params ≠ [] → ∃ j, create_transform_json camera_params = some j) := by
  refine ⟨⟨?_, ?_⟩, ?_⟩
  · intro h
    cases camera_params with
    | nil => rfl
    | cons p rest => simp [create_transform_json] at h
  · intro h
    rw [h]
    rfl
  · intro h
    cases camera_params with
    | nil => exact absurd rfl h
    | cons p rest => exact ⟨_, rfl⟩

theorem create_transform_json_empty_iff_witness :
    (create_transform_json ([] : List (FrameRec ℕ)) = none) ∧
      ∃ j, create_transform_json [(⟨"train/r_0", 1, [], 2⟩ : FrameRec ℕ)] = some j :=
  ⟨(create_transform_json_empty_iff ([] : List (FrameRec ℕ))).1.mpr rfl,
    (create_transform_json_empty_iff [(⟨"train/r_0", 1, [], 2⟩ : FrameRec ℕ)]).2
      (by simp)⟩

/-- C5 amended: for a non-positive configured frame count the run
aborts before any rendering only in the cases where
num_train = round(num_images * train_ratio) is zero, through the
ZeroDivisionError raised by the stride division of line 169 (this
covers num_images = 0); when num_train is nonzero the run is not
rejected at all: the loop body never executes and render_cube completes
normally with zero renders and both splits empty. -/
theorem renderCube_nonpositive_spec (config : Config) (f : ℚ) (cax : ℝ)
    (hn : config.num_images ≤ 0) :
    (pythonRound ((config.num_images : ℚ) * f) = 0 →
        render_cube config f cax = .error PyError.zeroDivision) ∧
      (pythonRound ((config.num_images : ℚ) * f) ≠ 0 →
        render_cube config f cax = .ok (initRState (Option ℝ))) := by
  constructor
  · intro h0
    unfold render_cube renderCubeRun
    rw [if_pos h0]
  · intro h0
    have hB : ¬(1 ≤ config.num_images ∧
        pythonRound ((config.num_images : ℚ) /
          (pythonRound ((config.num_images : ℚ) * f) : ℚ)) = 0) := by
      intro hc
      omega
    have htn : config.num_images.toNat = 0 := by omega
    unfold render_cube renderCubeRun
    rw [if_neg h0, if_neg hB, htn]
    rfl

theorem renderCube_nonpositive_witness :
    render_cube cfgZero (1 / 3) 0 = .error PyError.zeroDivision :=
  (renderCube_nonpositive_spec cfgZero (1 / 3) 0 (by norm_num [cfgZero])).1
    (by norm_num [cfgZero, pythonRound, Int.fract])

/-- C5 counterexample: a run configured with num_images = -9 and
train fraction 1/3 is not rejected and does not abort: num_train rounds
to -3 and stride to 3, so no ZeroDivisionError is raised, the loop over
range(-9) never runs, and render_cube completes normally with the empty
initial state, contradicting the claim that every n ≤ 0 aborts before
rendering. -/
theorem renderCube_negative_completes :
    render_cube cfgNeg (1 / 3) 0 = .ok (initRState (Option ℝ)) := by
  have h0 : ¬ pythonRound ((cfgNeg.num_images : ℚ) * (1 / 3)) = 0 := by
    norm_num [cfgNeg, pythonRound, Int.fract]
  have hB : ¬(1 ≤ cfgNeg.num_images ∧
      pythonRound ((cfgNeg.num_images : ℚ) /
        (pythonRound ((cfgNeg.num_images : ℚ) * (1 / 3)) : ℚ)) = 0) := by
    intro hc
    have h1 := hc.1
    norm_num [cfgNeg] at h1
  unfold render_cube renderCubeRun
  rw [if_neg h0, if_neg hB]
  rfl

/-- C2: under the stride-interleave policy, for every frame count
n ≥ 1 and train fraction f in the unit interval with
num_train = round(n * f) ≥ 1 and stride = round(n / num_train), the run
succeeds and the pose with global index i is assigned to the train
split exactly when i mod stride == 0 and to the test split otherwise,
the local index of each frame counting up independently per split in
traversal order (it is the position within the filtered index list);
and in the concrete scenario n = 9, f = 1/3: num_train = 3, stride = 3,
train receives global indices 0, 3, 6 and test receives
1, 2, 4, 5, 7, 8. -/
theorem stride_partition_spec (config : Config) (f : ℚ) (cax : ℝ)
    (num_train stride : ℤ)
    (hn : 1 ≤ config.num_images) (hf0 : 0 ≤ f) (hf1 : f ≤ 1)
    (hnt : num_train = pythonRound ((config.num_images : ℚ) * f))
    (hnt1 : 1 ≤ num_train)
    (hst : stride = pythonRound ((config.num_images : ℚ) / (num_train : ℚ))) :
    (∃ r : RState (Option ℝ), render_cube config f cax = .ok r ∧
      r.train = (idxFrom 0 ((List.range config.num_images.toNat).filter
          (fun i => decide (i % stride.natAbs = 0)))).map
        (fun p => trainFrameRec (fun i => transformRowsNp config.num_images i
            (deg2rad config.theta_max_deg) config.distance config.cubeLocation)
          (some goldenAngle) (some cax) p.1 p.2) ∧
      r.test = (idxFrom 0 ((List.range config.num_images.toNat).filter
          (fun i => decide (¬ i % stride.natAbs = 0)))).map
        (fun p => testFrameRec (fun i => transformRowsNp config.num_images i
            (deg2rad config.theta_max_deg) config.distance config.cubeLocation)
          (some goldenAngle) (some cax) p.1 p.2)) ∧
      (pythonRound ((9 : ℚ) * (1 / 3)) = 3 ∧
        pythonRound ((9 : ℚ) / (3 : ℚ)) = 3 ∧
        (List.range 9).filter (fun i => decide (i % 3 = 0)) = [0, 3, 6] ∧
        (List.range 9).filter (fun i => decide (¬ i % 3 = 0)) = [1, 2, 4, 5, 7, 8]) := by
  subst hnt
  subst hst
  constructor
  · refine ⟨_, render_cube_ok config f cax hn hf0 hf1 hnt1, ?_, ?_⟩
    · have h := (loop_train_spec
          (fun i => transformRowsNp config.num_images i
            (deg2rad config.theta_max_deg) config.distance config.cubeLocation)
          (some goldenAngle) (some cax)
          (config.directory ++ "/" ++ "cube" ++ "/" ++ "train")
          (config.directory ++ "/" ++ "cube" ++ "/" ++ "test")
          (pythonRound ((config.num_images : ℚ) /
            (pythonRound ((config.num_images : ℚ) * f) : ℚ))).natAbs
          (List.range config.num_images.toNat) (initRState (Option ℝ))).2
      simpa [initRState] using h
    · have h := (loop_test_spec
          (fun i => transformRowsNp config.num_images i
            (deg2rad config.theta_max_deg) config.distance config.cubeLocation)
          (some goldenAngle) (some cax)
          (config.directory ++ "/" ++ "cube" ++ "/" ++ "train")
          (config.directory ++ "/" ++ "cube" ++ "/" ++ "test")
          (pythonRound ((config.num_images : ℚ) /
            (pythonRound ((config.num_images : ℚ) * f) : ℚ))).natAbs
          (List.range config.num_images.toNat) (initRState (Option ℝ))).2
      simpa [initRState] using h
  · refine ⟨?_, ?_, by decide, by decide⟩
    · norm_num [pythonRound, Int.fract]
    · norm_num [pythonRound, Int.fract]

theorem stride_partition_witness :
    pythonRound ((9 : ℚ) * (1 / 3)) = 3 ∧
      pythonRound ((9 : ℚ) / (3 : ℚ)) = 3 ∧
      (List.range 9).filter (fun i => decide (i % 3 = 0)) = [0, 3, 6] ∧
      (List.range 9).filter (fun i => decide (¬ i % 3 = 0)) = [1, 2, 4, 5, 7, 8] :=
  (stride_partition_spec cfgNine (1 / 3) 0 3 3
    (by norm_num [cfgNine]) (by norm_num) (by norm_num)
    (by norm_num [cfgNine, pythonRound, Int.fract])
    (by norm_num)
    (by norm_num [cfgNine, pythonRound, Int.fract])).2

/-- C9: whenever stride is defined (num_train ≥ 1) and n ≥ 1, global
index 0 satisfies 0 mod stride == 0, so the first sampled pose goes to
the train split with local index 0: the train split is never empty and
its manifest is always written, leaving the test split as the only
split that can trigger the empty-split warning. -/
theorem train_split_never_empty (config : Config) (f : ℚ) (cax : ℝ)
    (hn : 1 ≤ config.num_images) (hf0 : 0 ≤ f) (hf1 : f ≤ 1)
    (hnt : 1 ≤ pythonRound ((config.num_images : ℚ) * f)) :
    ∃ r : RState (Option ℝ), render_cube config f cax = .ok r ∧
      r.train ≠ [] ∧
      (∃ p rest, r.train = p :: rest ∧ p.file_path = "train/r_" ++ natStr 0) ∧
      create_transform_json r.train ≠ none := by
  refine ⟨_, render_cube_ok config f cax hn hf0 hf1 hnt, ?_⟩
  have h := (loop_train_spec
      (fun i => transformRowsNp config.num_images i
        (deg2rad config.theta_max_deg) config.distance config.cubeLocation)
      (some goldenAngle) (some cax)
      (config.directory ++ "/" ++ "cube" ++ "/" ++ "train")
      (config.directory ++ "/" ++ "cube" ++ "/" ++ "test")
      (pythonRound ((config.num_images : ℚ) /
        (pythonRound ((config.num_images : ℚ) * f) : ℚ))).natAbs
      (List.range config.num_images.toNat) (initRState (Option ℝ))).2
  simp only [initRState, List.nil_append] at h
  obtain ⟨k, hk⟩ : ∃ k, config.num_images.toNat = k + 1 :=
    ⟨config.num_images.toNat - 1, by omega⟩
  rw [hk, List.range_succ_eq_map, List.filter_cons] at h
  simp only [Nat.zero_mod, decide_eq_true_eq, if_pos, idxFrom, List.map_cons] at h
  simp only [initRState]
  rw [hk, List.range_succ_eq_map, h]
  refine ⟨by simp, ⟨_, _, rfl, rfl⟩, by simp [create_transform_json]⟩

theorem train_split_never_empty_witness :
    ∃ r : RState (Option ℝ), render_cube cfgNine (1 / 3) 0 = .ok r ∧
      r.train ≠ [] ∧
      (∃ p rest, r.train = p :: rest ∧ p.file_path = "train/r_" ++ natStr 0) ∧
      create_transform_json r.train ≠ none :=
  train_split_never_empty cfgNine (1 / 3) 0 (by norm_num [cfgNine]) (by norm_num)
    (by norm_num) (by norm_num [cfgNine, pythonRound, Int.fract])

/-- Everything claim C8 requires of one split after serialisation and
re-parsing: a manifest document is written, parses back, yields the
stripped frames in insertion (sampling) order and hence the same count,
its camera_angle_x is the field of view of the first recorded frame,
the file_path values are pairwise distinct, and every serialised frame
object carries exactly the keys file_path, rotation and
transform_matrix. -/
def splitRoundtripOK {α : Type} (split : List (FrameRec α)) : Prop :=
  split ≠ [] → ∃ (j : Json α) (m : ManifestData α),
    create_transform_json split = some j ∧ parseManifest j = some m ∧
    m.frames.length = split.length ∧
    m.frames = split.map (fun q => ⟨q.file_path, q.rotation, q.transform_matrix⟩) ∧
    (∃ p₀ rest, split = p₀ :: rest ∧ m.camera_angle_x = p₀.camera_angle_x) ∧
    (m.frames.map JFrame.file_path).Nodup ∧
    ∀ fj ∈ split.map serializeFrame,
      jsonKeys fj = ["file_path", "rotation", "transform_matrix"]

lemma splitRoundtripOK_mk {α : Type} (tm : ℕ → List (List α)) (rot cax : α)
    (pre : String) (L : List ℕ) :
    splitRoundtripOK ((idxFrom 0 L).map
      (fun p => (⟨pre ++ natStr p.1, rot, tm p.2, cax⟩ : FrameRec α))) := by
  intro hne
  cases hsplit : (idxFrom 0 L).map
      (fun p => (⟨pre ++ natStr p.1, rot, tm p.2, cax⟩ : FrameRec α)) with
  | nil => exact absurd hsplit hne
  | cons p₀ rest =>
      obtain ⟨j, hj, hm⟩ := manifest_roundtrip p₀ rest
      refine ⟨j, _, hj, hm, by simp, rfl, ⟨p₀, rest, rfl, rfl⟩, ?_, ?_⟩
      · have hpaths : (((p₀ :: rest).map (fun q =>
            (⟨q.file_path, q.rotation, q.transform_matrix⟩ : JFrame α))).map
              JFrame.file_path) =
            (idxFrom 0 L).map (fun p => pre ++ natStr p.1) := by
          rw [← hsplit]
          simp [List.map_map]
        rw [hpaths]
        exact nodup_pathIdx pre L 0
      · intro fj hfj
        rw [List.mem_map] at hfj
        obtain ⟨q, -, rfl⟩ := hfj
        rfl

/-- C8: for either split of a successful run (n ≥ 1, unit-interval
train fraction, num_train ≥ 1), if that split is non-empty then
serialising its manifest and re-parsing it yields exactly the recorded
frames in insertion (sampling) order - in particular as many parsed
frames as recorded ones - a top-level camera_angle_x equal to the first
recorded frame field of view, file_path values unique within the split,
and frame objects exposing exactly the fields file_path, rotation and
transform_matrix. -/
theorem manifest_roundtrip_spec (config : Config) (f : ℚ) (cax : ℝ)
    (hn : 1 ≤ config.num_images) (hf0 : 0 ≤ f) (hf1 : f ≤ 1)
    (hnt : 1 ≤ pythonRound ((config.num_images : ℚ) * f)) :
    ∃ r : RState (Option ℝ), render_cube config f cax = .ok r ∧
      splitRoundtripOK r.train ∧ splitRoundtripOK r.test := by
  refine ⟨_, render_cube_ok config f cax hn hf0 hf1 hnt, ?_, ?_⟩
  · have h := (loop_train_spec
        (fun i => transformRowsNp config.num_images i
          (deg2rad config.theta_max_deg) config.distance config.cubeLocation)
        (some goldenAngle) (some cax)
        (config.directory ++ "/" ++ "cube" ++ "/" ++ "train")
        (config.directory ++ "/" ++ "cube" ++ "/" ++ "test")
        (pythonRound ((config.num_images : ℚ) /
          (pythonRound ((config.num_images : ℚ) * f) : ℚ))).natAbs
        (List.range config.num_images.toNat) (initRState (Option ℝ))).2
  -- the initial state has an empty train list and counter zero
    rw [h]
    simp only [initRState, List.nil_append, trainFrameRec]
    exact splitRoundtripOK_mk
      (fun i => transformRowsNp config.num_images i
        (deg2rad config.theta_max_deg) config.distance config.cubeLocation)
      (some goldenAngle) (some cax) "train/r_" _
  · have h := (loop_test_spec
        (fun i => transformRowsNp config.num_images i
          (deg2rad config.theta_max_deg) config.distance config.cubeLocation)
        (some goldenAngle) (some cax)
        (config.directory ++ "/" ++ "cube" ++ "/" ++ "train")
        (config.directory ++ "/" ++ "cube" ++ "/" ++ "test")
        (pythonRound ((config.num_images : ℚ) /
          (pythonRound ((config.num_images : ℚ) * f) : ℚ))).natAbs
        (List.range config.num_images.toNat) (initRState (Option ℝ))).2
    rw [h]
    simp only [initRState, List.nil_append, testFrameRec]
    exact splitRoundtripOK_mk
      (fun i => transformRowsNp config.num_images i
        (deg2rad config.theta_max_deg) config.distance config.cubeLocation)
      (some goldenAngle) (some cax) "test/r_" _

theorem manifest_roundtrip_spec_witness :
    ∃ r : RState (Option ℝ), render_cube cfgNine (1 / 3) 0 = .ok r ∧
      splitRoundtripOK r.train ∧ splitRoundtripOK r.test :=
  manifest_roundtrip_spec cfgNine (1 / 3) 0 (by norm_num [cfgNine]) (by norm_num)
    (by norm_num) (by norm_num [cfgNine, pythonRound, Int.fract])

/-- The render path trace of a finished run (empty when the run
aborted). -/
def runPaths {α : Type} : Except PyError (RState α) → List String
  | .ok r => r.renderPaths
  | .error _ => []

/-- C10: every output file path handed to the render call ends in
the hardcoded .png extension; the configured output format string plays
no part in those paths - replacing it leaves render_cube unchanged -
even though that same string is exactly what setup_scene assigns to the
renderer image settings. -/
theorem render_paths_png (config : Config) (f : ℚ) (cax : ℝ) (fmt : String) :
    (runPaths (render_cube config f cax)).Forall (fun p => ∃ q, p = q ++ ".png") ∧
      (setup_scene config).file_format = config.format ∧
      render_cube { config with format := fmt } f cax = render_cube config f cax := by
  refine ⟨?_, rfl, rfl⟩
  rw [List.forall_iff_forall_mem]
  intro p hp
  unfold render_cube renderCubeRun at hp
  by_cases hA : pythonRound ((config.num_images : ℚ) * f) = 0
  · rw [if_pos hA] at hp
    simp [runPaths] at hp
  · rw [if_neg hA] at hp
    by_cases hB : 1 ≤ config.num_images ∧
        pythonRound ((config.num_images : ℚ) /
          (pythonRound ((config.num_images : ℚ) * f) : ℚ)) = 0
    · rw [if_pos hB] at hp
      simp [runPaths] at hp
    · rw [if_neg hB] at hp
      simp only [runPaths] at hp
      rcases loop_paths_png _ _ _ _ _ _ _ _ p hp with h | h
      · simp [initRState] at h
      · exact h

theorem camPosCode_eq_spec_witness :
    camPosCode 2 1 0 5 = some (specCapPosition 2 1 0 5) :=
  camPosCode_eq_spec 2 1 0 5 (by norm_num) (by norm_num)
